import Mathlib

/-!
Verification of the portfolio valuation and indicator computations of a
Streamlit stock-dashboard repository (`stock_app.py` and the two pages
`1_Technical_Analysis.py`, `2_Valuation_Analysis.py`).

Prices, share counts and exchange rates are modelled as rationals (the
source uses floats; all the arithmetic here is exact).  Quote lookups
(`price_map.get(sym, 0)` / `div_map.get(sym, 0)`) are modelled as
`String → Option ℚ` maps with an explicit `0` default.  Pandas rolling
statistics are modelled as `List (Option ℚ)`: `none` for the rows where
the rolling window is not yet full (pandas `NaN`).  The one place where
IEEE-754 special values matter — the unguarded `gain/loss` division in
the RSI formula — is modelled by a dedicated `PyFloat` type with
`inf`/`nan` values following IEEE-754 semantics.
-/

namespace StockApp

/-- A holdings row from the spreadsheet: `name` is irrelevant to the
computations, so only `symbol`, `shares`, `cost` (cost basis per share)
and `currency` are kept. -/
structure Row where
  symbol : String
  shares : ℚ
  cost : ℚ
  currency : String
deriving Repr, DecidableEq

/-- The six computed columns returned by `process_row`
(`pd.Series([curr_price, mv_twd, profit_twd, roi, net_div_twd, yield_rate])`). -/
structure DerivedRow where
  current_price : ℚ
  mv_twd : ℚ
  profit_twd : ℚ
  roi : ℚ
  net_div_twd : ℚ
  yield_rate : ℚ
deriving Repr, DecidableEq

/-- `bond_list = ['TLT', 'SHV', 'SGOV', 'LQD']` (stock_app.py line 62). -/
def bond_list : List String := ["TLT", "SHV", "SGOV", "LQD"]

/-- `curr_price = price_map.get(row['symbol'], 0)` (line 65). -/
def curr_price (price_map : String → Option ℚ) (row : Row) : ℚ :=
  (price_map row.symbol).getD 0

/-- The currency-conversion factor `(usd_to_twd if row['currency'] == "USD" else 1)`
shared by lines 66 and 67. -/
def fx (usd_to_twd : ℚ) (row : Row) : ℚ :=
  if row.currency = "USD" then usd_to_twd else 1

/-- `mv_twd = curr_price * row['shares'] * (usd_to_twd if ... else 1)` (line 66). -/
def mv_twd (price_map : String → Option ℚ) (usd_to_twd : ℚ) (row : Row) : ℚ :=
  curr_price price_map row * row.shares * fx usd_to_twd row

/-- `cost_twd = row['cost'] * row['shares'] * (usd_to_twd if ... else 1)` (line 67). -/
def cost_twd (usd_to_twd : ℚ) (row : Row) : ℚ :=
  row.cost * row.shares * fx usd_to_twd row

/-- `profit_twd = mv_twd - cost_twd` (line 68). -/
def profit_twd (price_map : String → Option ℚ) (usd_to_twd : ℚ) (row : Row) : ℚ :=
  mv_twd price_map usd_to_twd row - cost_twd usd_to_twd row

/-- `roi = (profit_twd / cost_twd * 100) if cost_twd > 0 else 0` (line 69). -/
def roi (price_map : String → Option ℚ) (usd_to_twd : ℚ) (row : Row) : ℚ :=
  if cost_twd usd_to_twd row > 0 then
    profit_twd price_map usd_to_twd row / cost_twd usd_to_twd row * 100
  else 0

/-- `div_per_share = div_map.get(row['symbol'], 0)` (line 71). -/
def div_per_share (div_map : String → Option ℚ) (row : Row) : ℚ :=
  (div_map row.symbol).getD 0

/-- `total_div_raw = div_per_share * row['shares']` (line 72). -/
def total_div_raw (div_map : String → Option ℚ) (row : Row) : ℚ :=
  div_per_share div_map row * row.shares

/-- `tax_rate = 0.7 if row['symbol'] not in bond_list else 1.0` (line 75). -/
def tax_rate (row : Row) : ℚ :=
  if row.symbol ∉ bond_list then 0.7 else 1

/-- Lines 74-78: USD dividends are taxed (unless bond-exempt) and converted;
non-USD dividends are passed through raw. -/
def net_div_twd (div_map : String → Option ℚ) (usd_to_twd : ℚ) (row : Row) : ℚ :=
  if row.currency = "USD" then
    total_div_raw div_map row * tax_rate row * usd_to_twd
  else
    total_div_raw div_map row

/-- `yield_rate = (div_per_share / curr_price * 100) if curr_price > 0 else 0` (line 80). -/
def yield_rate (price_map div_map : String → Option ℚ) (row : Row) : ℚ :=
  if curr_price price_map row > 0 then
    div_per_share div_map row / curr_price price_map row * 100
  else 0

/-- `process_row` (stock_app.py lines 64-81), assembling the six returned columns. -/
def process_row (price_map div_map : String → Option ℚ) (usd_to_twd : ℚ)
    (row : Row) : DerivedRow :=
  { current_price := curr_price price_map row
    mv_twd := mv_twd price_map usd_to_twd row
    profit_twd := profit_twd price_map usd_to_twd row
    roi := roi price_map usd_to_twd row
    net_div_twd := net_div_twd div_map usd_to_twd row
    yield_rate := yield_rate price_map div_map row }

/-- `get_exchange_rate` (lines 31-37): the fetched USD/TWD rate on success,
the hard-coded `32.5` on any exception. -/
def get_exchange_rate (fetched : Except String ℚ) : ℚ :=
  match fetched with
  | .ok r => r
  | .error _ => 32.5

/-- The per-symbol dividend aggregation of the fetch loop (lines 54-59):
an empty dividend history yields `0.0`, otherwise the sum of the payouts of
the trailing 365 days.  Payouts are `(day, amount)` pairs with integer days. -/
def dividend_last_year (nowDay : ℤ) (divs : List (ℤ × ℚ)) : ℚ :=
  if divs = [] then 0
  else ((divs.filter fun d => nowDay - 365 < d.1).map Prod.snd).sum

/-- Example holding of the spec: `{shares=10, cost=100, currency=USD}`. -/
def row_ex : Row := ⟨"VOO", 10, 100, "USD"⟩

/-- Example price map: the example holding's symbol trades at `last_price = 150`. -/
def pm_ex : String → Option ℚ := fun s => if s = "VOO" then some 150 else none

/-- Example dividend map: `$2`/share of trailing-year dividends for the example symbol. -/
def dm_ex : String → Option ℚ := fun s => if s = "VOO" then some 2 else none

/-- C1: for a USD holding with fetched price `p` and exchange rate `r`,
market value, cost and profit in the reporting currency are exactly
`p·shares·r`, `cost·shares·r` and their difference; on the spec's example
(10 shares, cost 100, price 150, rate 32) this gives 32000 / 48000 / 16000
and an ROI of 50%. -/
theorem usd_valuation (price_map div_map : String → Option ℚ) (r p : ℚ) (row : Row)
    (hc : row.currency = "USD") (hp : price_map row.symbol = some p) :
    (process_row price_map div_map r row).mv_twd = p * row.shares * r ∧
    cost_twd r row = row.cost * row.shares * r ∧
    (process_row price_map div_map r row).profit_twd =
      p * row.shares * r - row.cost * row.shares * r ∧
    (cost_twd 32 row_ex = 32000 ∧ mv_twd pm_ex 32 row_ex = 48000 ∧
      profit_twd pm_ex 32 row_ex = 16000 ∧ roi pm_ex 32 row_ex = 50) := by
  refine ⟨?_, ?_, ?_,
    by norm_num [cost_twd, mv_twd, profit_twd, roi, curr_price, fx, row_ex, pm_ex]⟩
  · simp [process_row, mv_twd, curr_price, fx, hc, hp]
  · simp [cost_twd, fx, hc]
  · simp [process_row, profit_twd, mv_twd, cost_twd, curr_price, fx, hc, hp]

/-- Witness for C1 at the spec's example holding. -/
theorem usd_valuation_witness :
    row_ex.currency = "USD" ∧ pm_ex row_ex.symbol = some 150 ∧
    (process_row pm_ex dm_ex 32 row_ex).mv_twd = 150 * row_ex.shares * 32 :=
  ⟨rfl, rfl, (usd_valuation pm_ex dm_ex 32 150 row_ex rfl rfl).1⟩

/-- C2: the net reporting-currency dividend is `div_per_share · shares`,
multiplied by the flat withholding factor `0.7` exactly when the holding is
USD and its symbol is not bond-exempt, then converted at the exchange rate
exactly when the holding is USD (non-USD dividends stay unconverted); the
spec's example ($2/share, 10 shares, USD non-exempt, rate 32) nets 448. -/
theorem dividend_withholding (div_map : String → Option ℚ) (r : ℚ) (row : Row) :
    (row.currency = "USD" → row.symbol ∉ bond_list →
      net_div_twd div_map r row = div_per_share div_map row * row.shares * 0.7 * r) ∧
    (row.currency = "USD" → row.symbol ∈ bond_list →
      net_div_twd div_map r row = div_per_share div_map row * row.shares * 1 * r) ∧
    (row.currency ≠ "USD" →
      net_div_twd div_map r row = div_per_share div_map row * row.shares) ∧
    net_div_twd dm_ex 32 row_ex = 448 := by
  refine ⟨fun hc hb => ?_, fun hc hb => ?_, fun hc => ?_,
    by norm_num [net_div_twd, total_div_raw, div_per_share, tax_rate, bond_list,
      row_ex, dm_ex]; decide⟩
  · simp [net_div_twd, total_div_raw, tax_rate, hc, hb]
  · simp [net_div_twd, total_div_raw, tax_rate, hc, hb]
  · simp [net_div_twd, total_div_raw, hc]

/-- Witness for C2 at the spec's example holding (USD, non-exempt). -/
theorem dividend_withholding_witness :
    row_ex.currency = "USD" ∧ row_ex.symbol ∉ bond_list ∧
    net_div_twd dm_ex 32 row_ex = div_per_share dm_ex row_ex * row_ex.shares * 0.7 * 32 :=
  ⟨rfl, by decide, (dividend_withholding dm_ex 32 row_ex).1 rfl (by decide)⟩

/-- C3: whenever the reporting-currency cost is not positive (in particular 0)
the ROI is the sentinel `0` — the division is never performed — and whenever
the cost is positive the ROI is `profit / cost · 100`. -/
theorem roi_guard (price_map : String → Option ℚ) (r : ℚ) (row : Row) :
    (¬ cost_twd r row > 0 → roi price_map r row = 0) ∧
    (cost_twd r row > 0 →
      roi price_map r row = profit_twd price_map r row / cost_twd r row * 100) := by
  constructor
  · intro h; simp [roi, h]
  · intro h; simp [roi, h]

/-- Witness for C3 at a zero-cost holding. -/
theorem roi_guard_witness :
    ¬ cost_twd 32 (⟨"VOO", 10, 0, "USD"⟩ : Row) > 0 ∧
    roi pm_ex 32 (⟨"VOO", 10, 0, "USD"⟩ : Row) = 0 := by
  have h : ¬ cost_twd 32 (⟨"VOO", 10, 0, "USD"⟩ : Row) > 0 := by
    norm_num [cost_twd, fx]
  exact ⟨h, (roi_guard pm_ex 32 ⟨"VOO", 10, 0, "USD"⟩).1 h⟩

/-- C7: replacing the exchange rate `r1` by `r2` (both positive) scales the
four reporting-currency fields of a USD holding by exactly `r2 / r1`, leaves
its native-currency fields (`current_price`, `yield_rate`) and its
dimensionless ROI unchanged, and leaves every field of a non-USD holding
unchanged. -/
theorem fx_scaling (price_map div_map : String → Option ℚ) (r1 r2 : ℚ) (row : Row)
    (h1 : 0 < r1) (h2 : 0 < r2) :
    (row.currency = "USD" →
      mv_twd price_map r2 row = r2 / r1 * mv_twd price_map r1 row ∧
      cost_twd r2 row = r2 / r1 * cost_twd r1 row ∧
      profit_twd price_map r2 row = r2 / r1 * profit_twd price_map r1 row ∧
      net_div_twd div_map r2 row = r2 / r1 * net_div_twd div_map r1 row) ∧
    (process_row price_map div_map r2 row).current_price =
      (process_row price_map div_map r1 row).current_price ∧
    (process_row price_map div_map r2 row).yield_rate =
      (process_row price_map div_map r1 row).yield_rate ∧
    roi price_map r2 row = roi price_map r1 row ∧
    (row.currency ≠ "USD" →
      process_row price_map div_map r2 row = process_row price_map div_map r1 row) := by
  have hr1 : r1 ≠ 0 := ne_of_gt h1
  have hfx : ∀ r : ℚ, row.currency = "USD" → fx r row = r := fun r hc => by simp [fx, hc]
  refine ⟨fun hc => ⟨?_, ?_, ?_, ?_⟩, rfl, rfl, ?_, fun hc => ?_⟩
  · rw [mv_twd, mv_twd, hfx r1 hc, hfx r2 hc]; field_simp; ring
  · rw [cost_twd, cost_twd, hfx r1 hc, hfx r2 hc]; field_simp; ring
  · rw [profit_twd, profit_twd, mv_twd, mv_twd, cost_twd, cost_twd,
      hfx r1 hc, hfx r2 hc]; field_simp; ring
  · rw [net_div_twd, net_div_twd]; simp only [hc, if_pos]; field_simp; ring
  · -- ROI invariance: either both costs are positive (and the ratio cancels)
    -- or both guards fire.
    by_cases hcur : row.currency = "USD"
    · have hc2 : cost_twd r2 row = r2 / r1 * cost_twd r1 row := by
        rw [cost_twd, cost_twd, hfx r1 hcur, hfx r2 hcur]; field_simp; ring
      have hm2 : mv_twd price_map r2 row = r2 / r1 * mv_twd price_map r1 row := by
        rw [mv_twd, mv_twd, hfx r1 hcur, hfx r2 hcur]; field_simp; ring
      have hk : 0 < r2 / r1 := div_pos h2 h1
      by_cases hpos : cost_twd r1 row > 0
      · have hpos2 : cost_twd r2 row > 0 := by rw [hc2]; exact mul_pos hk hpos
        have hc1ne : cost_twd r1 row ≠ 0 := ne_of_gt hpos
        have hkne : r2 / r1 ≠ 0 := ne_of_gt hk
        rw [roi, roi, if_pos hpos, if_pos hpos2, profit_twd, profit_twd, hc2, hm2]
        field_simp
        ring
      · have hpos2 : ¬ cost_twd r2 row > 0 := by
          rw [hc2]; push_neg at hpos ⊢; nlinarith
        rw [roi, roi, if_neg hpos, if_neg hpos2]
    · simp [roi, profit_twd, mv_twd, cost_twd, fx, hcur]
  · simp [process_row, mv_twd, cost_twd, profit_twd, roi, net_div_twd, fx, hc]

/-- Witness for C7: doubling the rate from 32 to 64 doubles the USD market
value of the example holding. -/
theorem fx_scaling_witness :
    (0:ℚ) < 32 ∧ (0:ℚ) < 64 ∧ row_ex.currency = "USD" ∧
    mv_twd pm_ex 64 row_ex = 64 / 32 * mv_twd pm_ex 32 row_ex :=
  ⟨by norm_num, by norm_num,  rfl,
    ((fx_scaling pm_ex dm_ex 32 64 row_ex (by norm_num) (by norm_num)).1 rfl).1⟩

/-- C8: missing quote data is defaulted, never raised: a symbol absent from
the price map prices at 0 (so its market value is 0), a symbol absent from
the dividend map nets a 0 dividend, an empty dividend history aggregates to
`0.0` in the fetch loop, and the yield is the sentinel 0 whenever the current
price is not positive. -/
theorem missing_quote_defaults (price_map div_map : String → Option ℚ) (r : ℚ)
    (nowDay : ℤ) (row : Row) :
    (price_map row.symbol = none →
      curr_price price_map row = 0 ∧ mv_twd price_map r row = 0) ∧
    (div_map row.symbol = none → net_div_twd div_map r row = 0) ∧
    dividend_last_year nowDay [] = 0 ∧
    (¬ curr_price price_map row > 0 → yield_rate price_map div_map row = 0) := by
  refine ⟨fun hp => ⟨?_, ?_⟩, fun hd => ?_, rfl, fun hc => ?_⟩
  · simp [curr_price, hp]
  · simp [mv_twd, curr_price, hp]
  · simp [net_div_twd, total_div_raw, div_per_share, hd]
  · simp [yield_rate, hc]

/-- Witness for C8 at a symbol absent from both maps. -/
theorem missing_quote_defaults_witness :
    pm_ex "TSLA" = none ∧
    curr_price pm_ex (⟨"TSLA", 3, 5, "USD"⟩ : Row) = 0 ∧
    mv_twd pm_ex 32 (⟨"TSLA", 3, 5, "USD"⟩ : Row) = 0 :=
  ⟨rfl, ((missing_quote_defaults pm_ex dm_ex 32 0 ⟨"TSLA", 3, 5, "USD"⟩).1 rfl).1,
    ((missing_quote_defaults pm_ex dm_ex 32 0 ⟨"TSLA", 3, 5, "USD"⟩).1 rfl).2⟩

/-- C10: any exception while fetching the USD/TWD rate makes
`get_exchange_rate` silently return the hard-coded fallback `32.5`, and the
whole valuation pass then runs with that rate. -/
theorem exchange_rate_fallback :
    (∀ e : String, get_exchange_rate (.error e) = 32.5) ∧
    (∀ (e : String) (price_map div_map : String → Option ℚ) (row : Row),
      process_row price_map div_map (get_exchange_rate (.error e)) row =
        process_row price_map div_map 32.5 row) :=
  ⟨fun _ => rfl, fun _ _ _ _ => rfl⟩

/-- The trailing-`n` window of closes ending at index `i` (the values a full
pandas rolling window averages at row `i`). -/
def window (n i : ℕ) (xs : List ℚ) : List ℚ :=
  (xs.take (i + 1)).drop (i + 1 - n)

/-- Pandas `Series.rolling(n).mean()` (stock_app.py lines 130-132, page 1
lines 28-30): one output row per input row, `NaN` (here `none`) until the
window is full, afterwards the mean of the trailing `n` values. -/
def rolling_mean (n : ℕ) (xs : List ℚ) : List (Option ℚ) :=
  (List.range xs.length).map fun i =>
    if n ≤ i + 1 then some ((window n i xs).sum / (n : ℚ)) else none

lemma rolling_mean_getElem (n : ℕ) (xs : List ℚ) (i : ℕ) (hi : i < xs.length) :
    (rolling_mean n xs)[i]? =
      some (if n ≤ i + 1 then some ((window n i xs).sum / (n : ℚ)) else none) := by
  unfold rolling_mean
  rw [List.getElem?_map, List.getElem?_range hi]
  rfl

lemma window_mem (n i : ℕ) (xs : List ℚ) (x : ℚ) (hx : x ∈ window n i xs) : x ∈ xs :=
  List.mem_of_mem_take (List.mem_of_mem_drop hx)

/-- A full-window rolling mean of a nonnegative series is nonnegative. -/
lemma rolling_mean_nonneg (n : ℕ) (xs : List ℚ) (h : ∀ x ∈ xs, 0 ≤ x)
    (i : ℕ) (g : ℚ) (hg : (rolling_mean n xs)[i]? = some (some g)) : 0 ≤ g := by
  by_cases hi : i < xs.length
  · rw [rolling_mean_getElem n xs i hi] at hg
    by_cases hw : n ≤ i + 1
    · rw [if_pos hw] at hg
      obtain rfl : (window n i xs).sum / (n : ℚ) = g := by simpa using hg
      have hs : 0 ≤ (window n i xs).sum :=
        List.sum_nonneg fun x hx => h x (window_mem n i xs x hx)
      exact div_nonneg hs (Nat.cast_nonneg n)
    · rw [if_neg hw] at hg; simp at hg
  · have : (rolling_mean n xs)[i]? = none := by
      apply List.getElem?_eq_none
      simpa [rolling_mean] using le_of_not_lt hi
    rw [this] at hg; exact absurd hg (by simp)

/-- C4: for every positive window `n` (the source uses 20, 50 and 200), the
rolling mean of a series shorter than `n` is entirely null; on a series of
length at least `n` the first defined value sits exactly at index `n − 1`
(it is the mean of the first `n` closes), every earlier row is null, and
every defined row `i` is the arithmetic mean of the trailing `n` closes. -/
theorem sma_property (n : ℕ) (hn : 0 < n) (xs : List ℚ) :
    (xs.length < n → ∀ o ∈ rolling_mean n xs, o = none) ∧
    (n ≤ xs.length →
      (rolling_mean n xs)[n - 1]? = some (some ((xs.take n).sum / (n : ℚ)))) ∧
    (∀ i, i < xs.length → i + 1 < n → (rolling_mean n xs)[i]? = some none) ∧
    (∀ i, i < xs.length → n ≤ i + 1 →
      (rolling_mean n xs)[i]? = some (some ((window n i xs).sum / (n : ℚ)))) := by
  refine ⟨?_, ?_, ?_, ?_⟩
  · intro h o ho
    rw [rolling_mean, List.mem_map] at ho
    obtain ⟨i, hi, rfl⟩ := ho
    rw [List.mem_range] at hi
    rw [if_neg (by omega)]
  · intro h
    have hi : n - 1 < xs.length := by omega
    rw [rolling_mean_getElem n xs (n - 1) hi, if_pos (by omega)]
    have he : n - 1 + 1 = n := by omega
    simp [window, he]
  · intro i h1 h2
    rw [rolling_mean_getElem n xs i h1, if_neg (by omega)]
  · intro i h1 h2
    rw [rolling_mean_getElem n xs i h1, if_pos h2]

/-- Witness for C4: `rolling_mean 20` of 21 ones is first defined at index 19. -/
theorem sma_property_witness :
    0 < 20 ∧ 20 ≤ (List.replicate 21 (1 : ℚ)).length ∧
    (rolling_mean 20 (List.replicate 21 (1 : ℚ)))[20 - 1]? =
      some (some (((List.replicate 21 (1 : ℚ)).take 20).sum / (20 : ℚ))) :=
  ⟨by norm_num, by simp,
    (sma_property 20 (by norm_num) (List.replicate 21 (1 : ℚ))).2.1 (by simp)⟩

/-- `(delta.where(delta > 0, 0))` over `delta = close.diff()` (lines 136-137):
one row per close; the leading `NaN` of `diff` fails the `> 0` test and is
replaced by `0`, and each later row is the day-over-day rise floored at 0. -/
def gains : List ℚ → List ℚ
  | [] => []
  | x :: rest => 0 :: List.zipWith (fun prev next => max (next - prev) 0) (x :: rest) rest

/-- `(-delta.where(delta < 0, 0))` (line 138): the day-over-day drop floored
at 0, with the leading `NaN` row replaced by `0` as in `gains`. -/
def losses : List ℚ → List ℚ
  | [] => []
  | x :: rest => 0 :: List.zipWith (fun prev next => max (prev - next) 0) (x :: rest) rest

/-- `gain.rolling(14).mean()` (line 137). -/
def avg_gain (xs : List ℚ) : List (Option ℚ) := rolling_mean 14 (gains xs)

/-- `loss.rolling(14).mean()` (line 138). -/
def avg_loss (xs : List ℚ) : List (Option ℚ) := rolling_mean 14 (losses xs)

/-- `h['RSI'] = 100 - (100 / (1 + gain/loss))` (line 139), restricted to the
rows where both rolling averages are defined and the average loss is nonzero
(everywhere else the float computation produces `NaN`/`inf`, modelled `none`
here and studied separately over `PyFloat`). -/
def rsi (xs : List ℚ) : List (Option ℚ) :=
  (List.range xs.length).map fun i =>
    match (avg_gain xs)[i]?, (avg_loss xs)[i]? with
    | some (some g), some (some l) =>
        if l = 0 then none else some (100 - 100 / (1 + g / l))
    | _, _ => none

lemma zipWith_nonneg (f : ℚ → ℚ → ℚ) (hf : ∀ a b, 0 ≤ f a b) :
    ∀ (u v : List ℚ), ∀ x ∈ List.zipWith f u v, 0 ≤ x := by
  intro u
  induction u with
  | nil => intro v x hx; simp at hx
  | cons a u ih =>
    intro v x hx
    cases v with
    | nil => simp at hx
    | cons b v =>
      rw [List.zipWith_cons_cons] at hx
      rcases List.mem_cons.1 hx with h | h
      · exact h ▸ hf a b
      · exact ih v x h

lemma gains_nonneg (xs : List ℚ) : ∀ x ∈ gains xs, 0 ≤ x := by
  cases xs with
  | nil => intro x hx; simp [gains] at hx
  | cons a rest =>
    intro x hx
    rw [gains] at hx
    rcases List.mem_cons.1 hx with h | h
    · exact h.ge
    · exact zipWith_nonneg _ (fun a b => le_max_right _ _) _ _ x h

lemma losses_nonneg (xs : List ℚ) : ∀ x ∈ losses xs, 0 ≤ x := by
  cases xs with
  | nil => intro x hx; simp [losses] at hx
  | cons a rest =>
    intro x hx
    rw [losses] at hx
    rcases List.mem_cons.1 hx with h | h
    · exact h.ge
    · exact zipWith_nonneg _ (fun a b => le_max_right _ _) _ _ x h

/-- C5: every RSI value computed at a row where the 14-period average loss is
defined and nonzero lies within `[0, 100]`. -/
theorem rsi_bounded (xs : List ℚ) (i : ℕ) (v : ℚ)
    (h : (rsi xs)[i]? = some (some v)) : 0 ≤ v ∧ v ≤ 100 := by
  by_cases hi : i < xs.length
  · rw [rsi, List.getElem?_map, List.getElem?_range hi] at h
    simp only [Option.map_some'] at h
    cases hg : (avg_gain xs)[i]? with
    | none => rw [hg] at h; simp at h
    | some og =>
      cases og with
      | none => rw [hg] at h; simp at h
      | some g =>
        cases hl : (avg_loss xs)[i]? with
        | none => rw [hg, hl] at h; simp at h
        | some ol =>
          cases ol with
          | none => rw [hg, hl] at h; simp at h
          | some l =>
            rw [hg, hl] at h
            have h2 : (if l = 0 then (none : Option ℚ)
                else some (100 - 100 / (1 + g / l))) = some v := Option.some.inj h
            by_cases hlz : l = 0
            · rw [if_pos hlz] at h2; exact absurd h2 (by simp)
            · rw [if_neg hlz] at h2
              obtain rfl : 100 - 100 / (1 + g / l) = v := by simpa using h2
              have hg0 : 0 ≤ g := rolling_mean_nonneg 14 (gains xs) (gains_nonneg xs) i g hg
              have hl0 : 0 ≤ l := rolling_mean_nonneg 14 (losses xs) (losses_nonneg xs) i l hl
              have hlpos : 0 < l := lt_of_le_of_ne hl0 (Ne.symm hlz)
              have hq : 0 ≤ g / l := div_nonneg hg0 hl0
              have hd : 0 < 1 + g / l := by linarith
              constructor
              · have : 100 / (1 + g / l) ≤ 100 := by
                  rw [div_le_iff₀ hd]; nlinarith
                linarith
              · have : 0 ≤ 100 / (1 + g / l) := by positivity
                linarith
  · have hnone : (rsi xs)[i]? = none := by
      apply List.getElem?_eq_none
      simpa [rsi] using le_of_not_lt hi
    rw [hnone] at h; exact absurd h (by simp)

/-- A 15-point strictly falling close series, enough to fill the 14-row RSI
window with a nonzero average loss. -/
def closes_down : List ℚ :=
  [15, 14, 13, 12, 11, 10, 9, 8, 7, 6, 5, 4, 3, 2, 1]

/-- Witness for C5: on the falling series the RSI at row 13 is defined
(average loss 13/14, average gain 0) and equals 0, inside `[0, 100]`. -/
theorem rsi_bounded_witness :
    (rsi closes_down)[13]? = some (some 0) ∧ (0:ℚ) ≤ 0 ∧ (0:ℚ) ≤ 100 := by
  have h : (rsi closes_down)[13]? = some (some 0) := by
    norm_num [rsi, closes_down, avg_gain, avg_loss, gains, losses, rolling_mean,
      window, List.range_succ]
  exact ⟨h, (rsi_bounded closes_down 13 0 h).1, (rsi_bounded closes_down 13 0 h).2⟩

/-- An IEEE-754-style value as pandas/numpy produce it: an exact finite
number (the arithmetic of the source stays exact on these inputs), positive
or negative infinity, or `NaN`.  Only the operations the RSI formula uses
are defined. -/
inductive PyFloat where
  | fin : ℚ → PyFloat
  | inf : PyFloat
  | ninf : PyFloat
  | nan : PyFloat
deriving Repr, DecidableEq

/-- IEEE-754 division: finite/0 gives a signed infinity, 0/0 gives `NaN`,
finite/infinite gives 0, `NaN` propagates. -/
def PyFloat.div : PyFloat → PyFloat → PyFloat
  | .nan, _ => .nan
  | _, .nan => .nan
  | .fin a, .fin b =>
      if b = 0 then (if a = 0 then .nan else if 0 < a then .inf else .ninf)
      else .fin (a / b)
  | .fin _, .inf => .fin 0
  | .fin _, .ninf => .fin 0
  | .inf, .fin b => if 0 ≤ b then .inf else .ninf
  | .ninf, .fin b => if 0 ≤ b then .ninf else .inf
  | .inf, .inf => .nan
  | .inf, .ninf => .nan
  | .ninf, .inf => .nan
  | .ninf, .ninf => .nan

/-- IEEE-754 addition restricted to this value type. -/
def PyFloat.add : PyFloat → PyFloat → PyFloat
  | .nan, _ => .nan
  | _, .nan => .nan
  | .fin a, .fin b => .fin (a + b)
  | .fin _, .inf => .inf
  | .inf, .fin _ => .inf
  | .fin _, .ninf => .ninf
  | .ninf, .fin _ => .ninf
  | .inf, .inf => .inf
  | .ninf, .ninf => .ninf
  | .inf, .ninf => .nan
  | .ninf, .inf => .nan

/-- IEEE-754 subtraction restricted to this value type. -/
def PyFloat.sub : PyFloat → PyFloat → PyFloat
  | .nan, _ => .nan
  | _, .nan => .nan
  | .fin a, .fin b => .fin (a - b)
  | .fin _, .inf => .ninf
  | .inf, .fin _ => .inf
  | .fin _, .ninf => .inf
  | .ninf, .fin _ => .ninf
  | .inf, .inf => .nan
  | .ninf, .ninf => .nan
  | .inf, .ninf => .inf
  | .ninf, .inf => .ninf

/-- The unguarded RSI formula `100 - (100 / (1 + gain/loss))` (line 139)
exactly as the source ecosystem evaluates it: the division by the average
loss is performed unconditionally, with float special values. -/
def rsi_formula_float (gain loss : PyFloat) : PyFloat :=
  PyFloat.sub (.fin 100) (PyFloat.div (.fin 100) (PyFloat.add (.fin 1) (PyFloat.div gain loss)))

/-- The RSI column under float semantics: wherever both 14-row rolling
averages are defined, the unguarded formula is applied to them. -/
def rsi_float (xs : List ℚ) : List (Option PyFloat) :=
  (List.range xs.length).map fun i =>
    match (avg_gain xs)[i]?, (avg_loss xs)[i]? with
    | some (some g), some (some l) => some (rsi_formula_float (.fin g) (.fin l))
    | _, _ => none

/-- A 15-point strictly rising close series: its 14-row average loss is 0
while its average gain is positive. -/
def closes_up : List ℚ :=
  [1, 2, 3, 4, 5, 6, 7, 8, 9, 10, 11, 12, 13, 14, 15]

/-- C6 counterexample: with average loss 0 the unguarded ratio does not
always become infinite — at average gain 0 (e.g. on a flat series, here 15
constant closes at row 13) `0/0` is `NaN`, the formula yields `NaN`, and the
computation does not coerce to 100. -/
theorem rsi_zero_loss_zero_gain_nan :
    PyFloat.div (.fin 0) (.fin 0) = .nan ∧
    rsi_formula_float (.fin 0) (.fin 0) = .nan ∧
    rsi_formula_float (.fin 0) (.fin 0) ≠ .fin 100 ∧
    (rsi_float (List.replicate 15 (5 : ℚ)))[13]? = some (some PyFloat.nan) := by
  refine ⟨rfl, rfl, by decide, ?_⟩
  norm_num [rsi_float, avg_gain, avg_loss, gains, losses, rolling_mean, window,
    List.range_succ, List.replicate, rsi_formula_float, PyFloat.div, PyFloat.add,
    PyFloat.sub]

/-- C6 (amended): the division by the average loss is unguarded; for a zero
average loss and a nonnegative average gain `g` the float formula yields 100
precisely when `g > 0` (via the intermediate infinity) and `NaN` when
`g = 0`; on the strictly rising series the pipeline produces exactly 100 at
row 13. -/
theorem rsi_unguarded_zero_loss (g : ℚ) (hg : 0 ≤ g) :
    rsi_formula_float (.fin g) (.fin 0) =
      (if g = 0 then PyFloat.nan else PyFloat.fin 100) ∧
    (rsi_float closes_up)[13]? = some (some (PyFloat.fin 100)) := by
  constructor
  · by_cases hz : g = 0
    · simp [hz, rsi_formula_float, PyFloat.div, PyFloat.add, PyFloat.sub]
    · have hpos : 0 < g := lt_of_le_of_ne hg (Ne.symm hz)
      rw [if_neg hz]
      simp [rsi_formula_float, PyFloat.div, PyFloat.add, PyFloat.sub, hz, hpos]
  · norm_num [rsi_float, avg_gain, avg_loss, gains, losses, rolling_mean, window,
      List.range_succ, closes_up, rsi_formula_float, PyFloat.div, PyFloat.add,
      PyFloat.sub]

/-- Witness for the amended C6 at average gain 2. -/
theorem rsi_unguarded_zero_loss_witness :
    (0 : ℚ) ≤ 2 ∧ rsi_formula_float (.fin 2) (.fin 0) = .fin 100 := by
  refine ⟨by norm_num, ?_⟩
  have h := (rsi_unguarded_zero_loss 2 (by norm_num)).1
  simpa using h

/-- The transient Streamlit session: the pages only consult the
`"authenticated"` key, an optional boolean. -/
structure SessionState where
  authenticated : Option Bool
deriving Repr, DecidableEq

/-- The gate condition of both sub-pages:
`"authenticated" not in st.session_state or not st.session_state["authenticated"]`
(page 1 lines 8-10, page 2 lines 6-8). -/
def gate_blocks (s : SessionState) : Bool :=
  match s.authenticated with
  | some true => false
  | _ => true

/-- What a page run produces: `stopped` if it hits `st.stop()` before any
analysis content, `content` otherwise. -/
inductive RenderResult where
  | stopped : RenderResult
  | content : RenderResult
deriving Repr, DecidableEq

/-- `1_Technical_Analysis.py`: warn and stop when the gate blocks, else
render the analysis. -/
def technical_page (s : SessionState) : RenderResult :=
  if gate_blocks s then .stopped else .content

/-- `2_Valuation_Analysis.py`: warn and stop when the gate blocks, else
render the analysis. -/
def valuation_page (s : SessionState) : RenderResult :=
  if gate_blocks s then .stopped else .content

/-- `stock_app.py` (the entry page): it stops only when no sheet ID is
configured or entered (lines 19-21); it never consults the session's
authenticated flag and otherwise renders the full dashboard. -/
def main_page (gsheet_id : Option String) (_ : SessionState) : RenderResult :=
  match gsheet_id with
  | none => .stopped
  | some _ => .content

/-- C9 evaluated at its failing input: with a configured sheet ID and no
authenticated flag in the session, the main dashboard page renders its full
analysis content even though the gate condition of the sub-pages blocks (and
both sub-pages stop), so not every page render is password-gated. -/
theorem main_page_ungated :
    main_page (some "sheet-id") ⟨none⟩ = .content ∧
    gate_blocks ⟨none⟩ = true ∧
    technical_page ⟨none⟩ = .stopped ∧
    valuation_page ⟨none⟩ = .stopped ∧
    (∀ s : SessionState, technical_page s = .content ↔ s.authenticated = some true) ∧
    (∀ s : SessionState, valuation_page s = .content ↔ s.authenticated = some true) := by
  refine ⟨rfl, rfl, rfl, rfl, ?_, ?_⟩ <;>
    · intro s
      rcases s with ⟨_ | b⟩
      · simp [technical_page, valuation_page, gate_blocks]
      · cases b <;> simp [technical_page, valuation_page, gate_blocks]

end StockApp
